import Mathlib

/-!
Verification development for the P2G land-use allocation pipeline.

The JavaScript source is shallowly embedded: pure string/number helpers
become Lean functions over `List Char` and `ℚ`; geometry operations of the
turf library are abstracted as oracle parameters; the retry/caching fetch
client is modelled as a fuel-indexed state machine.  JavaScript doubles are
modelled by `ℚ`; `Number("…")` returning `NaN` is modelled by `Option.none`,
and `Number.isFinite` by a magnitude bound at the IEEE-754 double overflow
threshold `2^1024 - 2^970`.
-/

set_option maxRecDepth 40000

namespace P2G

/-! ### Character / string helpers (JS semantics) -/

/-- JS whitespace characters relevant to `String.prototype.trim` and `\s`
(restricted to the ASCII whitespace actually occurring in the data). -/
def jsWs (c : Char) : Bool :=
  c == ' ' || c == '\t' || c == '\n' || c == '\r' || c == '\x0b' || c == '\x0c'

def trimLeftCh (l : List Char) : List Char := l.dropWhile jsWs

def trimRightCh (l : List Char) : List Char := (l.reverse.dropWhile jsWs).reverse

/-- `String(raw).trim()`. -/
def trimCh (l : List Char) : List Char := trimRightCh (trimLeftCh l)

/-- First-occurrence character replacement: JS `v.replace(",", ".")`. -/
def replaceFirst : List Char → Char → Char → List Char
  | [], _, _ => []
  | c :: rest, a, b => if c == a then b :: rest else c :: replaceFirst rest a b

/-- `v.replace(/\s*(km|KM)\s*$/u, "")`: strip one trailing `km`/`KM` unit
suffix together with surrounding whitespace (leftmost-longest match of the
anchored pattern).  If no such suffix exists the string is unchanged. -/
def stripKmSuffix (l : List Char) : List Char :=
  let t := trimRightCh l
  if t.drop (t.length - 2) == ['k', 'm'] || t.drop (t.length - 2) == ['K', 'M'] then
    if t.length ≥ 2 then trimRightCh (t.take (t.length - 2)) else l
  else l

/-- One step of the global regex `/(?<=\d),(?=\d{3}(?:\D|$))/g`: remove every
comma preceded by a digit and followed by exactly three digits and then a
non-digit or the end of the string.  Lookarounds inspect the original
string, so the previous original character is threaded through. -/
def stripGroupCommasAux : Option Char → List Char → List Char
  | _, [] => []
  | prev, c :: rest =>
    let prevDigit : Bool := match prev with | some p => p.isDigit | none => false
    let aheadOk : Bool :=
      match rest with
      | d1 :: d2 :: d3 :: tail =>
        d1.isDigit && d2.isDigit && d3.isDigit &&
        (match tail with | [] => true | t :: _ => !t.isDigit)
      | _ => false
    if c == ',' && prevDigit && aheadOk then stripGroupCommasAux (some c) rest
    else c :: stripGroupCommasAux (some c) rest

def stripGroupCommas (l : List Char) : List Char := stripGroupCommasAux none l

/-! ### JS `Number(string)` on the post-cleanup alphabet -/

def digitsToNat (ds : List Char) : ℕ :=
  ds.foldl (fun a c => a * 10 + (c.toNat - 48)) 0

/-- Parse an unsigned JS decimal literal `digits [. digits]` / `. digits` /
`digits .`; any other shape is `NaN` (`none`).  After the cleanup steps the
string contains only digits, `.` and `-`, so exponents/hex cannot occur.
The exact decimal value `ip.fr` is `(ip·10^|fr| + fr) / 10^|fr|`. -/
def parseUnsigned (l : List Char) : Option ℚ :=
  let ip := l.takeWhile Char.isDigit
  let rest := l.drop ip.length
  match rest with
  | [] => if ip.isEmpty then none else some (digitsToNat ip : ℚ)
  | '.' :: fr =>
    if fr.all Char.isDigit && (!ip.isEmpty || !fr.isEmpty) then
      some (mkRat (digitsToNat ip * 10 ^ fr.length + digitsToNat fr) (10 ^ fr.length))
    else none
  | _ => none

/-- JS `Number(v)` for strings over the residual alphabet; `none` = `NaN`. -/
def jsNumber (l : List Char) : Option ℚ :=
  match l with
  | '-' :: rest => (parseUnsigned rest).map (fun q => -q)
  | '+' :: rest => parseUnsigned rest
  | _ => parseUnsigned l

/-- The IEEE-754 double overflow threshold: a decimal value of magnitude
at least `2^1024 - 2^970` rounds to `±Infinity`. -/
def doubleOverflow : ℚ := ((2 ^ 1024 - 2 ^ 970 : ℕ) : ℚ)

/-- `Number.isFinite` for the exact rational value of a decimal literal. -/
def isFiniteDouble (q : ℚ) : Bool :=
  if -doubleOverflow < q ∧ q < doubleOverflow then true else false

/-! ### `toNum` (src/hooks/useLocationsData.js lines 12–24) -/

/-- The cleanup pipeline of `toNum`: trim, strip the unit suffix, apply the
separator rules, strip the remaining non-numeric characters. -/
def cleanNum (s : String) : List Char :=
  let v0 := trimCh s.data
  let v1 := stripKmSuffix v0
  let hasComma := v1.any (· == ',')
  let hasDot := v1.any (· == '.')
  let v2 :=
    if hasComma && hasDot then replaceFirst (v1.filter (· != '.')) ',' '.'
    else if hasComma && !hasDot then replaceFirst v1 ',' '.'
    else stripGroupCommas v1
  v2.filter (fun c => c.isDigit || c == '.' || c == '-')

/-- The final step of `toNum`: reject degenerate strings, apply `Number`,
reject non-finite results. -/
def finishNum (v3 : List Char) : Option ℚ :=
  if v3 == [] || v3 == ['.'] || v3 == ['-'] || v3 == ['-', '.'] then none
  else
    match jsNumber v3 with
    | none => none
    | some n => if isFiniteDouble n then some n else none

/-- Shallow embedding of `toNum(raw)`.  `none` input models `null`/
`undefined`; the result is the parsed finite number or `null`. -/
def toNum (raw : Option String) : Option ℚ :=
  match raw with
  | none => none
  | some s => finishNum (cleanNum s)

/-! ### Header normalization and row field lookup
(src/hooks/useLocationsData.js lines 26–72) -/

/-- The punctuation class of `normKey`: `[_\-.()\[\]/:]`. -/
def isKeyPunct (c : Char) : Bool :=
  c == '_' || c == '-' || c == '.' || c == '(' || c == ')' ||
  c == '[' || c == ']' || c == '/' || c == ':'

/-- Replace every maximal run of characters satisfying `p` by a single `r`
(JS `replace(/X+/g, " ")`). -/
def collapseRunsAux (p : Char → Bool) (r : Char) : Bool → List Char → List Char
  | _, [] => []
  | inRun, c :: rest =>
    if p c then
      if inRun then collapseRunsAux p r true rest
      else r :: collapseRunsAux p r true rest
    else c :: collapseRunsAux p r false rest

def collapseRuns (p : Char → Bool) (r : Char) (l : List Char) : List Char :=
  collapseRunsAux p r false l

/-- `normKey(k)`: strip BOM, trim, lowercase, punctuation runs to a single
space, whitespace runs to a single space. -/
def normKey (k : String) : List Char :=
  let a := k.data.filter (fun c => c.toNat != 0xFEFF)
  let b := trimCh a
  let c := b.map Char.toLower
  let d := collapseRuns isKeyPunct ' ' c
  collapseRuns jsWs ' ' d

/-- A raw CSV row: the ordered string-keyed record produced by the parser. -/
abbrev Row := List (String × String)

/-- `normMap.get(nk)` where `normMap = new Map(keys.map(k => [normKey(k), k]))`:
for keys with equal normalized form, the later `Map.set` wins. -/
def normLookup (row : Row) (nk : List Char) : Option (String × String) :=
  row.foldl (fun acc kv => if normKey kv.1 == nk then some kv else acc) none

/-- `pick(row, candidates)`: first candidate whose normalized header is
present with a non-empty (after trim) cell value. -/
def pick : Row → List String → Option String
  | _, [] => none
  | row, c :: cs =>
    match normLookup row (normKey c) with
    | some (_, v) => if trimCh v.data != [] then some v else pick row cs
    | none => pick row cs

/-- `pickWithKey(row, candidates)`: as `pick` but returning the original
header together with the value. -/
def pickWithKey : Row → List String → Option (String × String)
  | _, [] => none
  | row, c :: cs =>
    match normLookup row (normKey c) with
    | some (k, v) => if trimCh v.data != [] then some (k, v) else pickWithKey row cs
    | none => pickWithKey row cs

def startsWithCh : List Char → List Char → Bool
  | [], _ => true
  | _ :: _, [] => false
  | a :: as, b :: bs => a == b && startsWithCh as bs

/-- JS `hay.includes(needle)` on character lists. -/
def containsSub (needle hay : List Char) : Bool :=
  match hay with
  | [] => needle.isEmpty
  | _ :: t => startsWithCh needle hay || containsSub needle t

/-- `findNumberByHeaderContains(row, substrings)`: first row key (in order)
whose normalized header contains one of the substrings and whose cell parses
to a number. -/
def findNumberByHeaderContains : Row → List String → Option (String × ℚ)
  | [], _ => none
  | (k, v) :: rest, subs =>
    if subs.any (fun s => containsSub s.data (normKey k)) then
      match toNum (some v) with
      | some n => some (k, n)
      | none => findNumberByHeaderContains rest subs
    else findNumberByHeaderContains rest subs

/-! ### WTP row parsing (src/hooks/useLocationsData.js lines 75–148) -/

/-- `autoDetectLatLon(row)`: explicit named headers, then substring headers,
then generic X/Y disambiguated by range with axis swap. -/
def autoDetectLatLon (row : Row) : Option (ℚ × ℚ) :=
  let latExplicit := toNum (pick row
    ["Latitude of W.T.P.", "latitude", "lat", "Latitude", "Y (Latitude)", "Y"])
  let lonExplicit := toNum (pick row
    ["Longitude of W.T.P.", "longitude", "lon", "lng", "Longitude", "X (Longitude)", "X"])
  match latExplicit, lonExplicit with
  | some la, some lo => some (la, lo)
  | _, _ =>
    let latFrom := findNumberByHeaderContains row [" lat", "lat ", "lat"]
    let lonFrom := findNumberByHeaderContains row [" lon", "lng", "long", "longitude"]
    match latFrom, lonFrom with
    | some lf, some gf => some (lf.2, gf.2)
    | _, _ =>
      let yVal := toNum (pick row ["Y", "y"])
      let xVal := toNum (pick row ["X", "x"])
      match yVal, xVal with
      | some yv, some xv =>
        if -90 ≤ yv ∧ yv ≤ 90 ∧ -180 ≤ xv ∧ xv ≤ 180 then some (yv, xv)
        else if -90 ≤ xv ∧ xv ≤ 90 ∧ -180 ≤ yv ∧ yv ≤ 180 then some (xv, yv)
        else none
      | _, _ => none

/-- `detectRadiusKm(row)`: explicit named header with positive value, else a
"radius"/"influence"/"coverage" substring header with positive value, else
nothing.  Returns a value only when it is strictly positive. -/
def detectRadiusKm (row : Row) : Option ℚ :=
  let direct := toNum (pick row
    ["Plant Influence Radius (km)", "Coverage radius (km)", "radius_km", "Radius (km)", "radius"])
  let fallback :=
    match findNumberByHeaderContains row ["radius", "influence", "coverage"] with
    | some (_, v) => if 0 < v then some v else none
    | none => none
  match direct with
  | some r => if 0 < r then some r else fallback
  | none => fallback

def detectName (row : Row) : String :=
  (pick row ["W.T.P. Name", "WTP Name", "Name", "Site", "id", "ID"]).getD ""

/-- The radius actually used by `readWtpRow`: the detected positive radius,
else the caller-supplied default (`none` models an absent default). -/
def resolveRadiusKm (row : Row) (fallbackRadiusKm : Option ℚ) : Option ℚ :=
  match detectRadiusKm row with
  | some r => if r ≤ 0 then fallbackRadiusKm else some r
  | none => fallbackRadiusKm

/-- A validated site record (`SiteRecord` of the spec). -/
structure WtpRecord where
  lat : ℚ
  lon : ℚ
  radius_km : ℚ
  name : String
  peLabel : Option String
  peValue : Option ℚ
deriving DecidableEq

/-- Capacity detection of `readWtpRow`: prefer the `Capacity` family, else
the `Potenz` family; record header text and parsed value. -/
def detectPe (row : Row) : Option (String × ℚ) :=
  let cap := pickWithKey row ["Capacity (p.e.)", "Capacity", "p.e.", "PE"]
  let pot := pickWithKey row ["Potenz. (A.E.)", "Potenz A.E.", "Potenz", "AE"]
  let fromPot : Option (String × ℚ) :=
    match pot with
    | some (k2, v2) => (toNum (some v2)).map (fun n => (k2, n))
    | none => none
  match cap with
  | some (k, v) =>
    match toNum (some v) with
    | some n => some (k, n)
    | none => fromPot
  | none => fromPot

/-- `readWtpRow(row, fallbackRadiusKm)`: `none` iff lat/lon or a strictly
positive radius cannot be resolved. -/
def readWtpRow (row : Row) (fallbackRadiusKm : Option ℚ) : Option WtpRecord :=
  let ll := autoDetectLatLon row
  let radius := resolveRadiusKm row fallbackRadiusKm
  let name := detectName row
  let pe := detectPe row
  match ll, radius with
  | some (la, lo), some r =>
    if r ≤ 0 then none
    else some ⟨la, lo, r, name, pe.map (·.1), pe.map (·.2)⟩
  | _, _ => none

/-- The batch stage of `useLocationGroup`: map `readWtpRow` over the parsed
rows and drop invalid ones (`filter(Boolean)`). -/
def normalizedRows (rows : List Row) (fb : Option ℚ) : List WtpRecord :=
  rows.filterMap (fun row => readWtpRow row fb)

/-- `useLocationGroup` reports "No valid rows found" iff the normalized batch
is empty. -/
def noValidRowsError (rows : List Row) (fb : Option ℚ) : Bool :=
  (normalizedRows rows fb).isEmpty

/-- The spec's example row: valid lat/lon but radius `0`. -/
def zeroRadiusRow : Row :=
  [("Name", "Plant A"), ("lat", "45.07"), ("lon", "7.69"), ("radius", "0")]

/-! ### Clip & Allocate engine (src/LandUseMap.jsx lines 158–233)

Turf geometry values are abstracted: a geometry is a `ℕ` identifier, the
geodesic-area oracle `area(inter)` is recorded as a rational field, and the
outcomes of `turf` predicates are oracle parameters. -/

inductive GeomType where
  | point
  | lineString
  | polygon
  | multiPolygon
  | geomCollection
deriving DecidableEq

/-- A clipped geometry as seen by the keep-filter: its GeoJSON type and the
value of the geodesic-area oracle `area(inter)`. -/
structure ClipFeat where
  geomType : GeomType
  area : ℚ
deriving DecidableEq

/-- One fetched feature entering the clip loop: its resolved `landuse` tag
(`none` when absent) and the result of `clipOne` (`none` = discarded). -/
structure Cand where
  landuse : Option String
  clip : Option ClipFeat
deriving DecidableEq

/-- The clip loop of `LandUseMap` (lines 205–227): skip features without an
enabled `landuse` tag, skip discarded clips, keep only Polygon/MultiPolygon
results of strictly positive area. -/
def keepFilter (toggles : String → Bool) : List Cand → List ClipFeat
  | [] => []
  | c :: rest =>
    match c.landuse with
    | none => keepFilter toggles rest
    | some lu =>
      if !toggles lu then keepFilter toggles rest
      else
        match c.clip with
        | none => keepFilter toggles rest
        | some f =>
          if f.geomType ≠ GeomType.polygon ∧ f.geomType ≠ GeomType.multiPolygon then
            keepFilter toggles rest
          else if 0 < f.area then f :: keepFilter toggles rest
          else keepFilter toggles rest

/-- `totalArea` accumulated over the kept features. -/
def totalAreaOf (l : List ClipFeat) : ℚ := (l.map (·.area)).sum

/-- The allocation pass (lines 229–233): each kept feature receives
`area / totalArea * totalProduction` when `totalArea > 0`, else `0`.
(The JS guard `Number.isFinite(totalProduction)` is the identity on `ℚ`.) -/
def allocate (kept : List ClipFeat) (totalProduction : ℚ) : List ℚ :=
  let totalArea := totalAreaOf kept
  kept.map (fun f => if 0 < totalArea then f.area / totalArea * totalProduction else 0)

/-- Outcome of a JS expression that may throw: `err` models a thrown
exception caught by an enclosing `try`. -/
inductive JsRes (α : Type) where
  | ok (a : α)
  | err
deriving DecidableEq

/-- `clipOne` against a single (non-FeatureCollection) AOI (lines 188–199):
first try `booleanIntersects` then `intersect`; on no result, fall back to
centroid point-in-polygon keeping the whole parcel `tf`; else discard.
Each turf call is an oracle that may throw. -/
def clipOneSingle (bInt : JsRes Bool) (inter : JsRes (Option ℕ))
    (ctr : JsRes Unit) (pip : JsRes Bool) (tf : ℕ) : Option ℕ :=
  let firstTry : Option ℕ :=
    match bInt with
    | .err => none
    | .ok false => none
    | .ok true =>
      match inter with
      | .err => none
      | .ok o => o
  match firstTry with
  | some g => some g
  | none =>
    match ctr, pip with
    | .ok _, .ok true => some tf
    | _, _ => none

/-! ### Circle union builder (src/hooks/useLocationsData.js lines 230–250) -/

/-- Outcome of one `turf.union(unioned, circles[i])` call in the pairwise
fallback loop: a merged geometry, a `null` result, or a thrown exception. -/
inductive PairRes where
  | ok (g : ℕ)
  | nullRes
  | err
deriving DecidableEq

/-- The JS pairwise loop: `if (next) unioned = next` skips `null` results;
a thrown union aborts the whole loop (caught by the enclosing `catch`). -/
def pairwiseLoop (acc : ℕ) : List PairRes → Option ℕ
  | [] => some acc
  | PairRes.ok g :: rest => pairwiseLoop g rest
  | PairRes.nullRes :: rest => pairwiseLoop acc rest
  | PairRes.err :: _ => none

/-- The resolved AOI union geometry: a single geometry, or the raw
`FeatureCollection` of circles (`unioned || circlesFC`). -/
inductive UnionGeom where
  | geom (g : ℕ)
  | rawCircles
deriving DecidableEq

/-- The union construction of `useLocationGroup`: one circle is used as-is;
otherwise the combine→buffer→simplify strategy (`primary`, `none` = thrown);
on failure the pairwise loop from `circles[0]`; on total failure the raw
circle collection. -/
def buildUnion (n : ℕ) (c0 : ℕ) (primary : Option ℕ) (steps : List PairRes) : UnionGeom :=
  if n = 1 then UnionGeom.geom c0
  else
    match primary with
    | some g => UnionGeom.geom g
    | none =>
      match pairwiseLoop c0 steps with
      | some g => UnionGeom.geom g
      | none => UnionGeom.rawCircles

/-- The left-to-right fold the spec describes: each successful pairwise
union replaces the accumulator, each failed one keeps it. -/
def skipFold (c0 : ℕ) (steps : List PairRes) : ℕ :=
  steps.foldl (fun acc s => match s with | PairRes.ok g => g | _ => acc) c0

/-! ### Centroid and covering radius (src/hooks/useLocationsData.js 218–260) -/

/-- `turf.center` of the site points: the midpoint of their bounding box
(coordinates as `(lat, lon)`). -/
def centerOf (pts : List (ℚ × ℚ)) : Option (ℚ × ℚ) :=
  match pts with
  | [] => none
  | p :: rest =>
    let minLat := rest.foldl (fun m x => min m x.1) p.1
    let maxLat := rest.foldl (fun m x => max m x.1) p.1
    let minLon := rest.foldl (fun m x => min m x.2) p.2
    let maxLon := rest.foldl (fun m x => max m x.2) p.2
    some ((minLat + maxLat) / 2, (minLon + maxLon) / 2)

/-- `maxSearchRadiusKm`: `Math.max` over sites of (distance from the
centroid to the site + the site radius), plus the fixed 1 km margin.  The
geodesic distance is an oracle parameter `dist`.  An empty site list takes
the early-return default `5` of the surrounding `useMemo`. -/
def maxSearchRadiusKm (dist : ℚ × ℚ → ℚ × ℚ → ℚ) (ctr : ℚ × ℚ)
    (rows : List WtpRecord) : ℚ :=
  match rows with
  | [] => 5
  | r :: rest =>
    (rest.foldl (fun m x => max m (dist ctr (x.lat, x.lon) + x.radius_km))
      (dist ctr (r.lat, r.lon) + r.radius_km)) + 1

/-! ### Overpass fetch client (src/LandUseMap.jsx lines 49–80, 236–240) -/

/-- The process-lifetime cache, modelled as an association list where the
most recent insertion shadows older entries (as `Map.set`/`Map.get` do). -/
abbrev Cache := List (String × ℕ)

def lookupCache : Cache → String → Option ℕ
  | [], _ => none
  | (k, g) :: rest, key => if k == key then some g else lookupCache rest key

def insertCache (c : Cache) (key : String) (g : ℕ) : Cache := (key, g) :: c

/-- Outcome of one fetch attempt: a parsed geometry, a retryable failure
(HTTP non-success or transport error), or a failure with the abort signal
already set (cancellation). -/
inductive AttemptOutcome where
  | ok (g : ℕ)
  | fail
  | abortFail
deriving DecidableEq

/-- Observable result of one `fetchOverpassWithBackoff` call. -/
structure FetchRes where
  result : Option ℕ
  aborted : Bool
  attempts : ℕ
  endpoints : List ℕ
  delays : List ℚ
  cache : Cache
deriving DecidableEq

/-- The retry loop: `fuel` counts the remaining attempts (`maxAttempts -
attempt`), `attempt` the current attempt index, `eIdx` the endpoint
rotation counter; `OVERPASS_ENDPOINTS` has 3 entries, so the endpoint used
is `eIdx % 3`.  A failure sleeps `min(2000·2^attempt, 12000) + jitter` and
advances the endpoint; success populates the cache and returns. -/
def fetchGo (oracle : ℕ → AttemptOutcome) (jitter : ℕ → ℚ) (key : String) :
    Cache → ℕ → ℕ → ℕ → FetchRes
  | cache, 0, _, _ => ⟨none, false, 0, [], [], cache⟩
  | cache, fuel + 1, attempt, eIdx =>
    let ep := eIdx % 3
    match oracle attempt with
    | .ok g => ⟨some g, false, 1, [ep], [], insertCache cache key g⟩
    | .abortFail => ⟨none, true, 1, [ep], [], cache⟩
    | .fail =>
      let d := min (2000 * 2 ^ attempt : ℚ) 12000 + jitter attempt
      let r := fetchGo oracle jitter key cache fuel (attempt + 1) (eIdx + 1)
      ⟨r.result, r.aborted, r.attempts + 1, ep :: r.endpoints, d :: r.delays, r.cache⟩

/-- `fetchOverpassWithBackoff(query, abortSignal, cacheKey)`: cache hit
returns immediately with no attempt; otherwise up to `maxAttempts = 5`
attempts are made. -/
def fetchOverpassWithBackoff (oracle : ℕ → AttemptOutcome) (jitter : ℕ → ℚ)
    (cache : Cache) (key : String) : FetchRes :=
  match lookupCache cache key with
  | some g => ⟨some g, false, 0, [], [], cache⟩
  | none => fetchGo oracle jitter key cache 5 0 0

/-- The caller's `try`/`catch` around the fetch (lines 236–240): a geometry
is processed into parcel output, an abort produces no update, and a
terminal failure produces the empty parcel output instead of a crash. -/
def callerOutput (r : FetchRes) (processed : ℕ → List ℚ) : Option (List ℚ) :=
  match r.result with
  | some g => some (processed g)
  | none => if r.aborted then none else some []

/-! ## Helper lemmas -/

lemma isFiniteDouble_iff (q : ℚ) :
    isFiniteDouble q = true ↔ -doubleOverflow < q ∧ q < doubleOverflow := by
  unfold isFiniteDouble
  split <;> simp_all

lemma finishNum_total (l : List Char) :
    finishNum l = none ∨
      ∃ q : ℚ, finishNum l = some q ∧ -doubleOverflow < q ∧ q < doubleOverflow := by
  unfold finishNum
  split
  · exact Or.inl rfl
  · split
    · exact Or.inl rfl
    · rename_i n hn
      by_cases hfin : isFiniteDouble n = true
      · exact Or.inr ⟨n, by simp [hfin], (isFiniteDouble_iff n).mp hfin⟩
      · left
        simp [hfin]

lemma map_div_mul_sum (l : List ℚ) (t P : ℚ) :
    (l.map (fun a => a / t * P)).sum = l.sum / t * P := by
  induction l with
  | nil => simp
  | cons a l ih =>
    simp only [List.map_cons, List.sum_cons, ih]
    ring

lemma keepFilter_mem (toggles : String → Bool) (cands : List Cand) :
    ∀ f ∈ keepFilter toggles cands,
      (f.geomType = GeomType.polygon ∨ f.geomType = GeomType.multiPolygon) ∧ 0 < f.area := by
  induction cands with
  | nil => intro f hf; simp [keepFilter] at hf
  | cons c rest ih =>
    intro f hf
    rcases c with ⟨lu, clip⟩
    cases lu with
    | none => exact ih f (by simpa [keepFilter] using hf)
    | some l =>
      by_cases ht : toggles l = true
      · cases clip with
        | none => exact ih f (by simpa [keepFilter, ht] using hf)
        | some cf =>
          by_cases hty : cf.geomType ≠ GeomType.polygon ∧ cf.geomType ≠ GeomType.multiPolygon
          · exact ih f (by simpa [keepFilter, ht, hty] using hf)
          · by_cases ha : 0 < cf.area
            · have hsplit : f = cf ∨ f ∈ keepFilter toggles rest := by
                simpa [keepFilter, ht, hty, ha] using hf
              rcases hsplit with rfl | hmem
              · refine ⟨?_, ha⟩
                rcases not_and_or.mp hty with h | h
                · exact Or.inl (not_not.mp h)
                · exact Or.inr (not_not.mp h)
              · exact ih f hmem
            · exact ih f (by simpa [keepFilter, ht, hty, ha] using hf)
      · exact ih f (by simpa [keepFilter, ht] using hf)

lemma pairwiseLoop_no_err (steps : List PairRes) :
    PairRes.err ∉ steps → ∀ acc, pairwiseLoop acc steps = some (skipFold acc steps) := by
  induction steps with
  | nil => intro _ acc; rfl
  | cons s rest ih =>
    intro h acc
    have hs : s ≠ PairRes.err := fun hcon => h (hcon ▸ List.mem_cons_self ..)
    have hrest : PairRes.err ∉ rest := fun hcon => h (List.mem_cons_of_mem _ hcon)
    cases s with
    | ok g => simpa [pairwiseLoop, skipFold] using ih hrest g
    | nullRes => simpa [pairwiseLoop, skipFold] using ih hrest acc
    | err => exact absurd rfl hs

lemma pairwiseLoop_err (steps : List PairRes) :
    PairRes.err ∈ steps → ∀ acc, pairwiseLoop acc steps = none := by
  induction steps with
  | nil => intro h; exact absurd h (List.not_mem_nil _)
  | cons s rest ih =>
    intro h acc
    cases s with
    | ok g => exact ih ((List.mem_cons.mp h).resolve_left (by simp)) g
    | nullRes => exact ih ((List.mem_cons.mp h).resolve_left (by simp)) acc
    | err => rfl

/-! ## Claim theorems -/

/-- Claim C1: with kept parcels of areas `a₁…aₙ` and total production `P`,
each allocation equals `P * aᵢ / Σ aⱼ` whenever the area sum is positive, so
allocations are proportional to area and sum exactly to `P`; when the area
sum is `0` every allocation is `0`. -/
theorem allocation_proportional (kept : List ClipFeat) (P : ℚ) :
    (0 < totalAreaOf kept →
      allocate kept P = kept.map (fun f => P * f.area / totalAreaOf kept) ∧
      (allocate kept P).sum = P) ∧
    (totalAreaOf kept = 0 → ∀ q ∈ allocate kept P, q = 0) := by
  constructor
  · intro hpos
    have hmap : allocate kept P = kept.map (fun f => f.area / totalAreaOf kept * P) := by
      simp [allocate, hpos]
    constructor
    · rw [hmap]
      have hfun : (fun f : ClipFeat => f.area / totalAreaOf kept * P) =
          fun f => P * f.area / totalAreaOf kept := by
        funext f; ring
      rw [hfun]
    · rw [hmap]
      have hcomp : kept.map (fun f : ClipFeat => f.area / totalAreaOf kept * P) =
          (kept.map (·.area)).map (fun a => a / totalAreaOf kept * P) := by
        rw [List.map_map]; rfl
      rw [hcomp, map_div_mul_sum]
      have : (kept.map (·.area)).sum = totalAreaOf kept := rfl
      rw [this, div_self (ne_of_gt hpos), one_mul]
  · intro hzero q hq
    have : allocate kept P = kept.map (fun _ => 0) := by
      simp [allocate, hzero]
    rw [this] at hq
    rcases List.mem_map.mp hq with ⟨f, _, hf⟩
    exact hf.symm

/-- Witness for C1: two kept parcels of area 1.0 km² (10⁶ m²) and 3.0 km²
(3·10⁶ m²) with total production 400 L receive 100 L and 300 L, summing
to 400. -/
theorem allocation_proportional_witness :
    0 < totalAreaOf [⟨GeomType.polygon, 1000000⟩, ⟨GeomType.polygon, 3000000⟩] ∧
    (allocate [⟨GeomType.polygon, 1000000⟩, ⟨GeomType.polygon, 3000000⟩] 400).sum = 400 ∧
    allocate [⟨GeomType.polygon, 1000000⟩, ⟨GeomType.polygon, 3000000⟩] 400 = [100, 300] := by
  refine ⟨by norm_num [totalAreaOf], ?_, ?_⟩
  · exact ((allocation_proportional
      [⟨GeomType.polygon, 1000000⟩, ⟨GeomType.polygon, 3000000⟩] 400).1
      (by norm_num [totalAreaOf])).2
  · norm_num [allocate, totalAreaOf]

/-- Claim C2: every feature retained by the clip loop has geometry type
Polygon or MultiPolygon and strictly positive computed area; clip results of
any other type or with non-positive area never reach the allocation pass. -/
theorem keepFilter_area_invariant (toggles : String → Bool) (cands : List Cand)
    (f : ClipFeat) (hf : f ∈ keepFilter toggles cands) :
    (f.geomType = GeomType.polygon ∨ f.geomType = GeomType.multiPolygon) ∧ 0 < f.area :=
  keepFilter_mem toggles cands f hf

/-- Witness for C2: a concrete clip batch (a kept polygon, a line-typed clip
result, an untagged feature, and a zero-area polygon) retains the polygon,
which indeed has an area type and positive area. -/
theorem keepFilter_area_invariant_witness :
    (⟨GeomType.polygon, 5⟩ : ClipFeat) ∈ keepFilter (fun _ => true)
      [⟨some "farmland", some ⟨GeomType.polygon, 5⟩⟩,
       ⟨some "vineyard", some ⟨GeomType.lineString, 3⟩⟩,
       ⟨none, some ⟨GeomType.polygon, 2⟩⟩,
       ⟨some "orchard", some ⟨GeomType.polygon, 0⟩⟩] ∧
    ((GeomType.polygon = GeomType.polygon ∨ GeomType.polygon = GeomType.multiPolygon) ∧
      (0 : ℚ) < 5) :=
  ⟨by decide, keepFilter_area_invariant (fun _ => true)
    [⟨some "farmland", some ⟨GeomType.polygon, 5⟩⟩,
     ⟨some "vineyard", some ⟨GeomType.lineString, 3⟩⟩,
     ⟨none, some ⟨GeomType.polygon, 2⟩⟩,
     ⟨some "orchard", some ⟨GeomType.polygon, 0⟩⟩] ⟨GeomType.polygon, 5⟩ (by decide)⟩

/-- Counterexample to C3 as stated: `"1,234.56"` does not parse to
`1234.56`.  The comma+dot rule removes the dot as a thousands separator and
turns the comma into the decimal point, yielding `1.23456`. -/
theorem toNum_english_grouping_cex :
    toNum (some "1,234.56") ≠ some (mkRat 123456 100) := by decide

/-- Claim C3 (amended): the separator rules as described, with the second
example corrected — `"1.234,56 km"` parses to `1234.56`, `"1,234.56"`
parses to `1.23456` (dot removed as a thousands separator, comma becomes
the decimal point), `"12,5"` parses to `12.5`, and non-numeric garbage
parses to `null`. -/
theorem toNum_separator_examples :
    toNum (some "1.234,56 km") = some (mkRat 123456 100) ∧
    toNum (some "1,234.56") = some (mkRat 123456 100000) ∧
    toNum (some "12,5") = some (mkRat 125 10) ∧
    toNum (some "n/a") = none := by
  exact ⟨by decide, by decide, by decide, by decide⟩

/-- Claim C10: `toNum` is total and never yields `NaN` or an infinite
value — for every input (null/undefined or any string) it returns either
`null` or a number strictly inside the IEEE-754 double overflow threshold
(the `Number.isFinite` guard rejects overflowing digit strings). -/
theorem toNum_total_finite (raw : Option String) :
    toNum raw = none ∨
      ∃ q : ℚ, toNum raw = some q ∧ -doubleOverflow < q ∧ q < doubleOverflow := by
  cases raw with
  | none => exact Or.inl rfl
  | some s => exact finishNum_total (cleanNum s)

/-- Claim C6: with at least two circles, when the primary
combine→buffer→simplify strategy throws, the builder runs the left-to-right
pairwise union loop skipping `null` results; when the pairwise chain also
fails the AOI union becomes the raw circle collection; and no oracle
outcome ever makes the builder produce anything but a geometry or the raw
circle collection. -/
theorem buildUnion_fallback (n c0 : ℕ) (steps : List PairRes) (hn : n ≠ 1) :
    (PairRes.err ∉ steps →
      buildUnion n c0 none steps = UnionGeom.geom (skipFold c0 steps)) ∧
    (PairRes.err ∈ steps → buildUnion n c0 none steps = UnionGeom.rawCircles) ∧
    (∀ primary, (∃ g, buildUnion n c0 primary steps = UnionGeom.geom g) ∨
      buildUnion n c0 primary steps = UnionGeom.rawCircles) := by
  refine ⟨?_, ?_, ?_⟩
  · intro hno
    simp [buildUnion, hn, pairwiseLoop_no_err steps hno c0]
  · intro herr
    simp [buildUnion, hn, pairwiseLoop_err steps herr c0]
  · intro primary
    unfold buildUnion
    split
    · exact Or.inl ⟨c0, rfl⟩
    · cases primary with
      | some g => exact Or.inl ⟨g, rfl⟩
      | none =>
        cases h : pairwiseLoop c0 steps with
        | some g => exact Or.inl ⟨g, by simp [h]⟩
        | none => exact Or.inr (by simp [h])

/-- Witness for C6: with three circles and a thrown primary strategy, a
pairwise chain `[union→5, union→null]` yields geometry 5 (the null step kept
the accumulator), and a chain containing a thrown union yields the raw
circle collection. -/
theorem buildUnion_fallback_witness :
    buildUnion 3 0 none [PairRes.ok 5, PairRes.nullRes] = UnionGeom.geom 5 ∧
    buildUnion 3 0 none [PairRes.nullRes, PairRes.err, PairRes.ok 9] =
      UnionGeom.rawCircles := by
  constructor
  · have h := (buildUnion_fallback 3 0 [PairRes.ok 5, PairRes.nullRes] (by decide)).1
      (by decide)
    simpa [skipFold] using h
  · exact (buildUnion_fallback 3 0 [PairRes.nullRes, PairRes.err, PairRes.ok 9]
      (by decide)).2.1 (by decide)

/-- Claim C7: clipping a parcel `tf` against a single polygon/multipolygon
AOI with consistent, non-throwing turf oracles (`booleanIntersects` reports
whether the exact intersection exists): if the intersection exists it is
kept; otherwise the centroid containment test decides between keeping the
original unclipped parcel and discarding it. -/
theorem clipOneSingle_spec (inter0 : Option ℕ) (pip0 : Bool) (tf : ℕ) :
    clipOneSingle (JsRes.ok inter0.isSome) (JsRes.ok inter0)
        (JsRes.ok ()) (JsRes.ok pip0) tf =
      match inter0 with
      | some g => some g
      | none => if pip0 then some tf else none := by
  cases inter0 <;> cases pip0 <;> rfl

lemma fetchGo_attempts_le (oracle : ℕ → AttemptOutcome) (jitter : ℕ → ℚ)
    (key : String) :
    ∀ (fuel : ℕ) (cache : Cache) (attempt eIdx : ℕ),
      (fetchGo oracle jitter key cache fuel attempt eIdx).attempts ≤ fuel := by
  intro fuel
  induction fuel with
  | zero => intro cache attempt eIdx; simp [fetchGo]
  | succ n ih =>
    intro cache attempt eIdx
    cases h : oracle attempt with
    | ok g => simp [fetchGo, h]
    | abortFail => simp [fetchGo, h]
    | fail =>
      simp only [fetchGo, h]
      exact Nat.succ_le_succ (ih cache (attempt + 1) (eIdx + 1))

/-- Claim C4: on a cache miss the client makes at most 5 attempts; a client
failing the first 4 attempts and succeeding on the 5th performs exactly 5
attempts rotating through the 3 endpoints, returns the successful geometry,
and waited `min(2000·2^i, 12000) + jitterᵢ` after each failure; failing all
5 attempts is a terminal failure that the caller converts into the empty
parcel output rather than a crash. -/
theorem fetch_retry_spec (oracle : ℕ → AttemptOutcome) (jitter : ℕ → ℚ)
    (cache : Cache) (key : String) (g : ℕ) (processed : ℕ → List ℚ) :
    (fetchOverpassWithBackoff oracle jitter cache key).attempts ≤ 5 ∧
    (lookupCache cache key = none →
      ((∀ i, i < 4 → oracle i = AttemptOutcome.fail) → oracle 4 = AttemptOutcome.ok g →
        (fetchOverpassWithBackoff oracle jitter cache key).result = some g ∧
        (fetchOverpassWithBackoff oracle jitter cache key).attempts = 5 ∧
        (fetchOverpassWithBackoff oracle jitter cache key).endpoints = [0, 1, 2, 0, 1] ∧
        (fetchOverpassWithBackoff oracle jitter cache key).delays =
          [2000 + jitter 0, 4000 + jitter 1, 8000 + jitter 2, 12000 + jitter 3]) ∧
      ((∀ i, i < 5 → oracle i = AttemptOutcome.fail) →
        (fetchOverpassWithBackoff oracle jitter cache key).result = none ∧
        (fetchOverpassWithBackoff oracle jitter cache key).aborted = false ∧
        callerOutput (fetchOverpassWithBackoff oracle jitter cache key) processed =
          some [])) := by
  constructor
  · cases hc : lookupCache cache key with
    | some g0 => simp [fetchOverpassWithBackoff, hc]
    | none =>
      simp only [fetchOverpassWithBackoff, hc]
      exact fetchGo_attempts_le oracle jitter key 5 cache 0 0
  · intro hmiss
    constructor
    · intro hfail hok
      have h0 := hfail 0 (by norm_num)
      have h1 := hfail 1 (by norm_num)
      have h2 := hfail 2 (by norm_num)
      have h3 := hfail 3 (by norm_num)
      simp only [fetchOverpassWithBackoff, hmiss]
      simp [fetchGo, h0, h1, h2, h3, hok]
      norm_num
    · intro hfail
      have h0 := hfail 0 (by norm_num)
      have h1 := hfail 1 (by norm_num)
      have h2 := hfail 2 (by norm_num)
      have h3 := hfail 3 (by norm_num)
      have h4 := hfail 4 (by norm_num)
      simp only [fetchOverpassWithBackoff, hmiss]
      simp [fetchGo, h0, h1, h2, h3, h4, callerOutput]

/-- Witness for C4: an oracle failing attempts 0–3 and succeeding on
attempt 4 yields exactly 5 attempts and the fetched geometry, and an
always-failing oracle yields the empty parcel output. -/
theorem fetch_retry_spec_witness :
    (fetchOverpassWithBackoff (fun i => if i < 4 then AttemptOutcome.fail
      else AttemptOutcome.ok 7) (fun _ => 0) [] "k").result = some 7 ∧
    (fetchOverpassWithBackoff (fun i => if i < 4 then AttemptOutcome.fail
      else AttemptOutcome.ok 7) (fun _ => 0) [] "k").attempts = 5 ∧
    callerOutput (fetchOverpassWithBackoff (fun _ => AttemptOutcome.fail)
      (fun _ => 0) [] "k") (fun _ => [1]) = some [] := by
  refine ⟨?_, ?_, ?_⟩
  · exact (((fetch_retry_spec (fun i => if i < 4 then AttemptOutcome.fail
      else AttemptOutcome.ok 7) (fun _ => 0) [] "k" 7 (fun _ => [1])).2 rfl).1
      (by intro i hi; simp [hi]) (by norm_num)).1
  · exact (((fetch_retry_spec (fun i => if i < 4 then AttemptOutcome.fail
      else AttemptOutcome.ok 7) (fun _ => 0) [] "k" 7 (fun _ => [1])).2 rfl).1
      (by intro i hi; simp [hi]) (by norm_num)).2.1
  · exact (((fetch_retry_spec (fun _ => AttemptOutcome.fail)
      (fun _ => 0) [] "k" 7 (fun _ => [1])).2 rfl).2
      (fun i _ => rfl)).2.2

/-- Claim C5: a cache hit returns the cached geometry immediately with zero
attempts and an unchanged cache; on a cache miss that succeeds on the first
attempt, a second call with the same key makes zero attempts and returns
the same geometry — one network attempt across both calls. -/
theorem fetch_cache_spec (oracle1 oracle2 : ℕ → AttemptOutcome)
    (jitter1 jitter2 : ℕ → ℚ) (cache : Cache) (key : String) (g : ℕ) :
    (lookupCache cache key = some g →
      fetchOverpassWithBackoff oracle1 jitter1 cache key =
        ⟨some g, false, 0, [], [], cache⟩) ∧
    (lookupCache cache key = none → oracle1 0 = AttemptOutcome.ok g →
      (fetchOverpassWithBackoff oracle1 jitter1 cache key).result = some g ∧
      (fetchOverpassWithBackoff oracle1 jitter1 cache key).attempts = 1 ∧
      (fetchOverpassWithBackoff oracle2 jitter2
        (fetchOverpassWithBackoff oracle1 jitter1 cache key).cache key).result = some g ∧
      (fetchOverpassWithBackoff oracle2 jitter2
        (fetchOverpassWithBackoff oracle1 jitter1 cache key).cache key).attempts = 0) := by
  constructor
  · intro hhit
    simp [fetchOverpassWithBackoff, hhit]
  · intro hmiss hok
    simp [fetchOverpassWithBackoff, hmiss, fetchGo, hok, insertCache, lookupCache]

/-- Witness for C5: with a concrete cache holding the key, the call returns
the cached geometry with zero attempts; and a miss followed by a re-request
of the same key performs one attempt in total. -/
theorem fetch_cache_spec_witness :
    fetchOverpassWithBackoff (fun _ => AttemptOutcome.fail) (fun _ => 0)
      [("bbox|tags|sig", 42)] "bbox|tags|sig" =
        ⟨some 42, false, 0, [], [], [("bbox|tags|sig", 42)]⟩ ∧
    (fetchOverpassWithBackoff (fun _ => AttemptOutcome.ok 9) (fun _ => 0) [] "k2").attempts = 1 ∧
    (fetchOverpassWithBackoff (fun _ => AttemptOutcome.fail) (fun _ => 0)
      (fetchOverpassWithBackoff (fun _ => AttemptOutcome.ok 9) (fun _ => 0) [] "k2").cache
      "k2").attempts = 0 := by
  refine ⟨?_, ?_, ?_⟩
  · exact (fetch_cache_spec (fun _ => AttemptOutcome.fail) (fun _ => AttemptOutcome.fail)
      (fun _ => 0) (fun _ => 0) [("bbox|tags|sig", 42)] "bbox|tags|sig" 42).1 rfl
  · exact ((fetch_cache_spec (fun _ => AttemptOutcome.ok 9) (fun _ => AttemptOutcome.fail)
      (fun _ => 0) (fun _ => 0) [] "k2" 9).2 rfl rfl).2.1
  · exact ((fetch_cache_spec (fun _ => AttemptOutcome.ok 9) (fun _ => AttemptOutcome.fail)
      (fun _ => 0) (fun _ => 0) [] "k2" 9).2 rfl rfl).2.2.2

lemma foldl_max_le {α : Type} (f : α → ℚ) :
    ∀ (l : List α) (init : ℚ),
      init ≤ l.foldl (fun m x => max m (f x)) init ∧
      ∀ x ∈ l, f x ≤ l.foldl (fun m x => max m (f x)) init := by
  intro l
  induction l with
  | nil => intro init; exact ⟨le_refl _, by simp⟩
  | cons a t ih =>
    intro init
    simp only [List.foldl_cons]
    constructor
    · exact le_trans (le_max_left _ _) (ih (max init (f a))).1
    · intro x hx
      rcases List.mem_cons.mp hx with rfl | hmem
      · exact le_trans (le_max_right _ _) (ih (max init (f x))).1
      · exact (ih (max init (f a))).2 x hmem

lemma foldl_max_mem {α : Type} (f : α → ℚ) :
    ∀ (l : List α) (init : ℚ),
      l.foldl (fun m x => max m (f x)) init = init ∨
      ∃ x ∈ l, l.foldl (fun m x => max m (f x)) init = f x := by
  intro l
  induction l with
  | nil => intro init; exact Or.inl rfl
  | cons a t ih =>
    intro init
    simp only [List.foldl_cons]
    rcases ih (max init (f a)) with h | ⟨x, hx, hfx⟩
    · rcases max_choice init (f a) with hm | hm
      · exact Or.inl (by rw [h, hm])
      · exact Or.inr ⟨a, List.mem_cons_self .., by rw [h, hm]⟩
    · exact Or.inr ⟨x, List.mem_cons_of_mem _ hx, hfx⟩

/-- Claim C8: for a non-empty site list, `maxSearchRadiusKm` is an upper
bound of (distance from the centroid to the site + site radius) + 1 over
all sites, is attained at some site, and for a single site at distance 0
from the centroid equals radius + 1 (so radius 2 km gives 3 km); the
centroid of a single site is the site itself. -/
theorem maxSearchRadius_spec (dist : ℚ × ℚ → ℚ × ℚ → ℚ) (ctr : ℚ × ℚ)
    (rows : List WtpRecord) (hne : rows ≠ []) :
    (∀ r ∈ rows, dist ctr (r.lat, r.lon) + r.radius_km + 1 ≤
      maxSearchRadiusKm dist ctr rows) ∧
    (∃ r ∈ rows, maxSearchRadiusKm dist ctr rows =
      dist ctr (r.lat, r.lon) + r.radius_km + 1) ∧
    (∀ s : WtpRecord, rows = [s] → dist ctr (s.lat, s.lon) = 0 →
      maxSearchRadiusKm dist ctr rows = s.radius_km + 1) ∧
    (∀ p : ℚ × ℚ, centerOf [p] = some p) := by
  match rows, hne with
  | r0 :: rest, _ =>
    refine ⟨?_, ?_, ?_, ?_⟩
    · intro r hr
      rcases List.mem_cons.mp hr with rfl | hmem
      · exact add_le_add_right
          ((foldl_max_le (fun x : WtpRecord => dist ctr (x.lat, x.lon) + x.radius_km)
            rest _).1) 1
      · exact add_le_add_right
          ((foldl_max_le (fun x : WtpRecord => dist ctr (x.lat, x.lon) + x.radius_km)
            rest _).2 r hmem) 1
    · rcases foldl_max_mem (fun x : WtpRecord => dist ctr (x.lat, x.lon) + x.radius_km)
        rest (dist ctr (r0.lat, r0.lon) + r0.radius_km) with h | ⟨x, hx, hfx⟩
      · exact ⟨r0, List.mem_cons_self .., by simp only [maxSearchRadiusKm, h]⟩
      · exact ⟨x, List.mem_cons_of_mem _ hx, by simp only [maxSearchRadiusKm, hfx]⟩
    · intro s hs hdist
      injection hs with h1 h2
      subst h1; subst h2
      simp [maxSearchRadiusKm, hdist]
    · intro p
      obtain ⟨a, b⟩ := p
      simp [centerOf]

/-- Witness for C8: a single site at (45.07, 7.69) with radius 2 km — the
centroid is the site itself, and with zero self-distance the covering
radius is 0 + 2 + 1 = 3 km. -/
theorem maxSearchRadius_spec_witness :
    centerOf [(mkRat 4507 100, mkRat 769 100)] =
      some (mkRat 4507 100, mkRat 769 100) ∧
    maxSearchRadiusKm (fun _ _ => 0) (mkRat 4507 100, mkRat 769 100)
      [⟨mkRat 4507 100, mkRat 769 100, 2, "S", none, none⟩] = 3 := by
  have h := maxSearchRadius_spec (fun _ _ => 0) (mkRat 4507 100, mkRat 769 100)
      [⟨mkRat 4507 100, mkRat 769 100, 2, "S", none, none⟩] (by simp)
  refine ⟨h.2.2.2 _, ?_⟩
  have h3 := h.2.2.1 ⟨mkRat 4507 100, mkRat 769 100, 2, "S", none, none⟩ rfl rfl
  rw [h3]
  norm_num

/-- Claim C9: a row yields a record iff lat/lon are resolved and a strictly
positive radius is resolved (explicit, substring, or fallback default); the
batch error is reported iff the normalized batch is empty; and the spec's
example row (valid lat/lon, radius 0, no fallback default) is dropped. -/
theorem readWtpRow_valid_iff :
    (∀ (row : Row) (fb : Option ℚ),
      (readWtpRow row fb).isSome = true ↔
        (autoDetectLatLon row).isSome = true ∧
        ∃ r, resolveRadiusKm row fb = some r ∧ 0 < r) ∧
    (∀ (rows : List Row) (fb : Option ℚ),
      noValidRowsError rows fb = true ↔ normalizedRows rows fb = []) ∧
    readWtpRow zeroRadiusRow none = none ∧
    normalizedRows [zeroRadiusRow] none = [] ∧
    noValidRowsError [zeroRadiusRow] none = true := by
  refine ⟨?_, ?_, by decide, by decide, by decide⟩
  · intro row fb
    simp only [readWtpRow]
    cases hll : autoDetectLatLon row with
    | none => simp [hll]
    | some ll0 =>
      obtain ⟨la, lo⟩ := ll0
      cases hr : resolveRadiusKm row fb with
      | none => simp [hr]
      | some r =>
        by_cases hle : r ≤ 0
        · simp [hr, hle, not_lt.mpr hle]
        · simp [hr, hle, lt_of_not_le hle]
  · intro rows fb
    simp [noValidRowsError, List.isEmpty_iff]

end P2G
